import Mathlib

/-!
Shallow embedding of the AirLetters letter-lifecycle and route-interpolation
code, together with theorems checking the natural-language specification
against it.

Conventions of the embedding:
* JavaScript timestamps (`Date` values, luxon `DateTime` values) are modelled
  as integer milliseconds (`ℤ`).  A timestamp field that may be missing or
  unparsable (an Invalid Date, i.e. `NaN`) is modelled as `Option ℤ`, with
  `none` standing for `NaN`; every JS comparison against `NaN` is `false`.
* JavaScript numeric division on millisecond quantities is modelled over `ℚ`.
  A progress field that can hold `NaN` is modelled as `Option ℚ`.
* Array indexing `route[i]` is modelled by an `Option`-returning lookup
  (`none` models the `undefined` produced by an out-of-bounds access), so a
  function result of `some _` certifies that no out-of-bounds access happened.
-/

namespace AirLetters

/-- Letter status progression: scheduled -> in_transit -> delivered -> read
(the `LETTER_STATUS` enumeration of `src/lib/storage.js`). -/
inductive LetterStatus where
  | scheduled
  | in_transit
  | delivered
  | read
deriving DecidableEq, Repr

/-- The letter record produced by `saveLetter` in `src/lib/storage.js`.
ISO-8601 timestamp strings are modelled by their parsed millisecond value;
`scheduledSendUTC` is an `Option` because the status-recompute code must cope
with a missing or malformed value (an Invalid Date). -/
structure Letter where
  id : String
  text : String
  createdAt : ℤ
  scheduledSendUTC : Option ℤ
  deliveredAt : Option ℤ
  readAt : Option ℤ
  status : LetterStatus
  fromFlight : String
  toFlight : String
  animationProgress : Option ℚ
  senderUser : String
deriving DecidableEq, Repr

instance : Inhabited Letter :=
  ⟨{ id := "", text := "", createdAt := 0, scheduledSendUTC := none,
     deliveredAt := none, readAt := none, status := .scheduled,
     fromFlight := "", toFlight := "", animationProgress := none,
     senderUser := "" }⟩

/-- Comparison `now >= new Date(t)` in JS: a comparison against an Invalid
Date (`NaN`) is `false`. -/
def dateLe (t : Option ℤ) (now : ℤ) : Bool :=
  match t with
  | some s => decide (s ≤ now)
  | none => false

/-! ### Progress Calculator (`src/lib/simulation.js`) -/

/-- The body of `flightProgressPercent(departureISO, arrivalISO, nowISO)` from
`src/lib/simulation.js`, with the three parsed timestamps as millisecond
integers:

    const dur = arr.toMillis() - dep.toMillis();
    const elapsed = Math.max(0, Math.min(now.toMillis() - dep.toMillis(), dur));
    return dur <= 0 ? 0 : elapsed / dur;
-/
def flightProgressPercent (dep arr now : ℤ) : ℚ :=
  let dur : ℤ := arr - dep
  let elapsed : ℤ := max 0 (min (now - dep) dur)
  if dur ≤ 0 then 0 else (elapsed : ℚ) / (dur : ℚ)

/-! ### Letter status state machine (`processLetterStatuses`)

The loop body of `processLetterStatuses` is identical in `src/lib/storage.js`
and `src/lib/testFlights.js` except for the transit-duration constant
(`30 * 1000` ms in storage.js, `5 * 60 * 1000` ms in testFlights.js), so it is
embedded once with the constant as the parameter `transitDuration`. -/

/-- Transit duration used by `processLetterStatuses` in `src/lib/storage.js`
(shortened to 30 s for testing, per the source comment). -/
def transitDurationStorage : ℤ := 30 * 1000

/-- Transit duration used by `processLetterStatuses` in
`src/lib/testFlights.js` (5 minutes). -/
def transitDurationTestFlights : ℤ := 5 * 60 * 1000

/-- One iteration of the `for (let letter of letters)` loop of
`processLetterStatuses`: first the `scheduled -> in_transit` check
(`now >= scheduledTime`), then the `in_transit` delivery check
(`progress = Math.min(elapsed / transitDuration, 1)`, delivered when
`progress >= 1`).  When `scheduledSendUTC` is malformed (`none`), the first
comparison is `false` (NaN comparison) and, in the `in_transit` branch,
`elapsed` and hence `progress` are `NaN` (modelled `none`), and `NaN >= 1` is
`false`. -/
def processLetter (transitDuration now : ℤ) (letter : Letter) : Letter :=
  let l1 :=
    if letter.status == .scheduled && dateLe letter.scheduledSendUTC now then
      { letter with status := .in_transit, animationProgress := some 0 }
    else letter
  if l1.status == .in_transit then
    match l1.scheduledSendUTC with
    | some s =>
      let elapsed : ℤ := now - s
      let progress : ℚ := min ((elapsed : ℚ) / (transitDuration : ℚ)) 1
      if 1 ≤ progress then
        { l1 with status := .delivered, deliveredAt := some now,
                  animationProgress := some 1 }
      else
        { l1 with animationProgress := some progress }
    | none => { l1 with animationProgress := none }
  else l1

/-- The whole recompute pass `processLetterStatuses`: the loop mutates each
letter in place and returns the list, which is a `map` of the per-letter step
over the stored list. -/
def processLetterStatuses (transitDuration now : ℤ) (letters : List Letter) :
    List Letter :=
  letters.map (processLetter transitDuration now)

/-! ### Sync manager (`src/lib/syncManager.js`) -/

/-- The `statusPriority` table of `mergeLetterData` in `src/lib/syncManager.js`:
scheduled < in_transit < delivered < read. -/
def statusPriority : LetterStatus → ℕ
  | .scheduled => 0
  | .in_transit => 1
  | .delivered => 2
  | .read => 3

/-- `estimateLetterProgress(letter, currentTime)` from `src/lib/syncManager.js`.
The function recomputes the status from `currentTime` alone: before the
scheduled time it returns a `scheduled` copy, within the 5-minute transit
window an `in_transit` copy with `animationProgress = elapsed / transit`, and
afterwards a `delivered` copy with `animationProgress = 1` and
`deliveredAt = letter.deliveredAt || (scheduled + transit)`.

When `scheduledSendUTC` is malformed (`none`, an Invalid Date), both `NaN`
comparisons are `false`, so control reaches the delivered branch where
`new Date(NaN).toISOString()` throws a `RangeError` unless `deliveredAt` is
already set; the thrown case is modelled by a `none` result. -/
def estimateLetterProgress (letter : Letter) (currentTime : ℤ) : Option Letter :=
  match letter.scheduledSendUTC with
  | some scheduledTime =>
    if currentTime < scheduledTime then
      some { letter with status := .scheduled, animationProgress := some 0 }
    else
      let transitDuration : ℤ := 5 * 60 * 1000
      let elapsed : ℤ := currentTime - scheduledTime
      if elapsed < transitDuration then
        some { letter with
                 status := .in_transit,
                 animationProgress := some ((elapsed : ℚ) / (transitDuration : ℚ)) }
      else
        some { letter with
                 status := .delivered,
                 animationProgress := some 1,
                 deliveredAt := some ((letter.deliveredAt).getD
                   (scheduledTime + transitDuration)) }
  | none =>
    match letter.deliveredAt with
    | some t =>
      some { letter with
               status := .delivered,
               animationProgress := some 1,
               deliveredAt := some t }
    | none => none

/-- One iteration of the `for (const remoteLetter of remoteLetters)` loop of
`mergeLetterData`.  `localIds` is `new Set(localLetters.map(l => l.id))`.
When the remote id is absent locally the remote letter is pushed; otherwise
`findIndex` locates the first entry with that id and, when the remote status
has strictly larger priority, replaces it by `{ ...local, ...remoteLetter }`
(the remote record defines every `Letter` field, so the spread equals the
remote record).  The two `none` fallthrough branches are unreachable because
`merged` always still contains every local id. -/
def mergeStep (localIds : List String) (merged : List Letter)
    (remoteLetter : Letter) : List Letter :=
  if localIds.contains remoteLetter.id then
    match merged.findIdx? (fun l => l.id == remoteLetter.id) with
    | some localIndex =>
      match merged[localIndex]? with
      | some localLetter =>
        if statusPriority localLetter.status <
            statusPriority remoteLetter.status then
          merged.set localIndex remoteLetter
        else merged
      | none => merged
    | none => merged
  else merged ++ [remoteLetter]

/-- `mergeLetterData(localLetters, remoteLetters)` from
`src/lib/syncManager.js`: starting from a copy of `localLetters`, fold the
merge step over `remoteLetters`. -/
def mergeLetterData (localLetters remoteLetters : List Letter) : List Letter :=
  remoteLetters.foldl (mergeStep (localLetters.map (·.id))) localLetters

/-! ### `saveLetter` (`src/lib/storage.js`) -/

/-- `saveLetter(text, sendDelayMinutes)` from `src/lib/storage.js`, with its
ambient inputs made explicit: `currentUser` (from `getCurrentUser()`), `now`
(wall clock), the two random ids, and the previously stored letter list
`existing` (fetched by the source but then discarded: the stored list is reset
to exactly the two fresh letters).  Returns the new stored list together with
the user's letter (the function's return value). -/
def saveLetter (text : String) (sendDelayMinutes : ℤ) (currentUser : String)
    (now : ℤ) (id1 id2 : String) (existing : List Letter) :
    List Letter × Letter :=
  let transitTime : ℤ := now + sendDelayMinutes * 60000
  let fromFlight := currentUser
  let toFlight := if currentUser = "A" then "B" else "A"
  let userLetter : Letter :=
    { id := id1, text := text.trim, createdAt := now,
      scheduledSendUTC := some transitTime, deliveredAt := none, readAt := none,
      status := .in_transit, fromFlight := fromFlight, toFlight := toFlight,
      animationProgress := some 0, senderUser := currentUser }
  let otherUserLetter : Letter :=
    { id := id2, text := "Letter from User " ++ toFlight, createdAt := now,
      scheduledSendUTC := some transitTime, deliveredAt := none, readAt := none,
      status := .in_transit, fromFlight := toFlight, toFlight := fromFlight,
      animationProgress := some 0, senderUser := toFlight }
  let newLetters := [userLetter, otherUserLetter]
  (newLetters, userLetter)

/-! ### Route interpolation -/

/-- A geographic waypoint (`{ latitude, longitude }`). -/
structure Point where
  latitude : ℚ
  longitude : ℚ
deriving DecidableEq, Repr

/-- JS array indexing `route[i]` with a possibly negative index: a negative or
out-of-bounds index yields `undefined`, modelled `none`. -/
def jsIndex (route : List Point) (i : ℤ) : Option Point :=
  if 0 ≤ i then route[i.toNat]? else none

/-- `interpolateRoute(route, progress)` from the MapScreen revision
(`src/unnamed/part_009`, lines 489-504): early returns for `progress <= 0` and
`progress >= 1`, otherwise piecewise-linear interpolation on segment
`Math.floor(progress * totalSegments)`. -/
def interpolateRoute (route : List Point) (progress : ℚ) : Option Point :=
  if progress ≤ 0 then jsIndex route 0
  else if 1 ≤ progress then jsIndex route ((route.length : ℤ) - 1)
  else
    let totalSegments : ℤ := (route.length : ℤ) - 1
    let segment : ℤ := ⌊progress * (totalSegments : ℚ)⌋
    let segmentProgress : ℚ := progress * (totalSegments : ℚ) - (segment : ℚ)
    match jsIndex route segment,
          jsIndex route (min (segment + 1) ((route.length : ℤ) - 1)) with
    | some s, some e =>
      some ⟨s.latitude + (e.latitude - s.latitude) * segmentProgress,
            s.longitude + (e.longitude - s.longitude) * segmentProgress⟩
    | _, _ => none

/-- `interpolatePosition(route, progress)` from
`src/lib/flightSimulation.js` (lines 136-159).  Identical to
`interpolateRoute` except for the empty-route guard (`return null`) and the
"slight curvature" term `Math.sin(segmentProgress * Math.PI) * 0.01` added to
the latitude.  The sine makes the exact function transcendental, so the result
coordinates live in `ℝ`. -/
noncomputable def interpolatePosition (route : List Point) (progress : ℚ) :
    Option (ℝ × ℝ) :=
  if route.length = 0 then none
  else if progress ≤ 0 then
    (jsIndex route 0).map (fun p => ((p.latitude : ℝ), (p.longitude : ℝ)))
  else if 1 ≤ progress then
    (jsIndex route ((route.length : ℤ) - 1)).map
      (fun p => ((p.latitude : ℝ), (p.longitude : ℝ)))
  else
    let totalSegments : ℤ := (route.length : ℤ) - 1
    let segmentIndex : ℤ := ⌊progress * (totalSegments : ℚ)⌋
    let segmentProgress : ℚ :=
      progress * (totalSegments : ℚ) - (segmentIndex : ℚ)
    match jsIndex route segmentIndex,
          jsIndex route (min (segmentIndex + 1) ((route.length : ℤ) - 1)) with
    | some s, some e =>
      let lat : ℝ :=
        (s.latitude : ℝ) + ((e.latitude : ℝ) - (s.latitude : ℝ)) *
          ((segmentProgress : ℚ) : ℝ)
      let lon : ℝ :=
        (s.longitude : ℝ) + ((e.longitude : ℝ) - (s.longitude : ℝ)) *
          ((segmentProgress : ℚ) : ℝ)
      let curvature : ℝ :=
        Real.sin (((segmentProgress : ℚ) : ℝ) * Real.pi) * (1 / 100)
      some (lat + curvature, lon)
    | _, _ => none

/-- Spec-side route interpolator, written from the words of spec section 4.3
for the refinement comparison with `interpolateRoute`: first point at
`progress <= 0`, last point at `progress >= 1`, a single-point route returns
its point for any progress, and otherwise the route is `route.length - 1`
equal segments, the segment index is `floor(progress * segmentCount)`, and
latitude and longitude are linearly interpolated between that segment's two
endpoints. -/
def positionAtSpec (route : List Point) (progress : ℚ) : Option Point :=
  if progress ≤ 0 then route[0]?
  else if 1 ≤ progress then route[route.length - 1]?
  else if route.length = 1 then route[0]?
  else
    let segmentCount : ℕ := route.length - 1
    let k : ℕ := (⌊progress * (segmentCount : ℚ)⌋).toNat
    let frac : ℚ := progress * (segmentCount : ℚ) - (k : ℚ)
    match route[k]?, route[k + 1]? with
    | some s, some e =>
      some ⟨s.latitude + (e.latitude - s.latitude) * frac,
            s.longitude + (e.longitude - s.longitude) * frac⟩
    | _, _ => none

/-! ### Concrete sample letters used as witness inputs -/

/-- Sample letter whose status is read. -/
def sampleReadLetter : Letter :=
  { id := "L1", text := "hello", createdAt := 0, scheduledSendUTC := some 0,
    deliveredAt := some 200000, readAt := some 250000, status := .read,
    fromFlight := "A", toFlight := "B", animationProgress := some 1,
    senderUser := "A" }

/-- Sample letter whose status is delivered. -/
def sampleDeliveredLetter : Letter :=
  { id := "L2", text := "done", createdAt := 0, scheduledSendUTC := some 0,
    deliveredAt := some 200000, readAt := none, status := .delivered,
    fromFlight := "A", toFlight := "B", animationProgress := some 1,
    senderUser := "A" }

/-- Sample letter in transit since time 0. -/
def sampleTransitLetter : Letter :=
  { id := "L3", text := "flying", createdAt := 0, scheduledSendUTC := some 0,
    deliveredAt := none, readAt := none, status := .in_transit,
    fromFlight := "A", toFlight := "B", animationProgress := some 0,
    senderUser := "A" }

/-- Sample scheduled letter whose scheduled-send timestamp is malformed. -/
def sampleMalformedLetter : Letter :=
  { id := "L4", text := "broken", createdAt := 0, scheduledSendUTC := none,
    deliveredAt := none, readAt := none, status := .scheduled,
    fromFlight := "A", toFlight := "B", animationProgress := some 0,
    senderUser := "A" }

/-- Sample remote letter with the same id as `sampleTransitLetter` but a
strictly later status. -/
def sampleRemoteLetter : Letter :=
  { id := "L3", text := "flying", createdAt := 0, scheduledSendUTC := some 0,
    deliveredAt := some 40000, readAt := some 50000, status := .read,
    fromFlight := "A", toFlight := "B", animationProgress := some 1,
    senderUser := "A" }

/-! ### Helper lemmas about the letter state machine -/

/-- The per-letter recompute step never touches a letter whose status is read. -/
theorem processLetter_read_fixed (d now : ℤ) (l : Letter) (h : l.status = .read) :
    processLetter d now l = l := by
  unfold processLetter
  simp [h, dateLe]

/-- The per-letter recompute step never touches a delivered letter. -/
theorem processLetter_delivered_fixed (d now : ℤ) (l : Letter)
    (h : l.status = .delivered) : processLetter d now l = l := by
  unfold processLetter
  simp [h, dateLe]

/-- The per-letter recompute step never decreases the status priority. -/
theorem processLetter_monotone (d now : ℤ) (l : Letter) :
    statusPriority l.status ≤ statusPriority (processLetter d now l).status := by
  unfold processLetter
  cases l with
  | mk id text createdAt sched deliveredAt readAt status fromFlight toFlight prog sender =>
    cases status <;> cases sched <;> simp [dateLe, statusPriority] <;> split_ifs <;>
      simp [statusPriority]

/-- The per-letter recompute step is idempotent for a fixed current time. -/
theorem processLetter_idem (d now : ℤ) (l : Letter) :
    processLetter d now (processLetter d now l) = processLetter d now l := by
  cases hst : l.status with
  | read =>
    rw [processLetter_read_fixed d now l hst, processLetter_read_fixed d now l hst]
  | delivered =>
    rw [processLetter_delivered_fixed d now l hst,
        processLetter_delivered_fixed d now l hst]
  | scheduled =>
    cases hsched : l.scheduledSendUTC with
    | none =>
      have h1 : processLetter d now l = l := by
        unfold processLetter; simp [hst, hsched, dateLe]
      rw [h1, h1]
    | some s =>
      by_cases hle : s ≤ now
      · by_cases hc : (1 : ℚ) ≤ ((now : ℚ) - (s : ℚ)) / (d : ℚ)
        · have h1 : processLetter d now l =
              { l with status := .delivered, deliveredAt := some now,
                       animationProgress := some 1 } := by
            unfold processLetter
            simp [hst, hsched, dateLe, hle]
            exact hc
          rw [h1]
          exact processLetter_delivered_fixed d now _ rfl
        · have h1 : processLetter d now l =
              { l with status := .in_transit,
                       animationProgress :=
                         some (min (((now : ℚ) - (s : ℚ)) / (d : ℚ)) 1) } := by
            unfold processLetter
            simp [hst, hsched, dateLe, hle]
            exact not_le.mp hc
          rw [h1]
          unfold processLetter
          simp [hsched, dateLe]
          exact not_le.mp hc
      · have h1 : processLetter d now l = l := by
          unfold processLetter; simp [hst, hsched, dateLe, hle]
        rw [h1, h1]
  | in_transit =>
    cases hsched : l.scheduledSendUTC with
    | none =>
      have h1 : processLetter d now l = { l with animationProgress := none } := by
        unfold processLetter; simp [hst, hsched, dateLe]
      rw [h1]
      unfold processLetter
      simp [hsched, dateLe]
    | some s =>
      by_cases hc : (1 : ℚ) ≤ ((now : ℚ) - (s : ℚ)) / (d : ℚ)
      · have h1 : processLetter d now l =
            { l with status := .delivered, deliveredAt := some now,
                     animationProgress := some 1 } := by
          unfold processLetter
          simp [hst, hsched, dateLe]
          exact hc
        rw [h1]
        exact processLetter_delivered_fixed d now _ rfl
      · have h1 : processLetter d now l =
            { l with status := .in_transit,
                     animationProgress :=
                       some (min (((now : ℚ) - (s : ℚ)) / (d : ℚ)) 1) } := by
          unfold processLetter
          simp [hst, hsched, dateLe]
          exact not_le.mp hc
        rw [h1]
        unfold processLetter
        simp [hsched, dateLe]
        exact not_le.mp hc

/-! ### Helper lemmas about route interpolation -/

/-- Bounds for the segment index chosen by the interpolators in the strict
interior of the progress range. -/
theorem segment_idx_bounds {n : ℕ} (hn : 1 ≤ n) {p : ℚ} (h0 : 0 < p) (h1 : p < 1) :
    0 ≤ ⌊p * (((n : ℤ) - 1 : ℤ) : ℚ)⌋ ∧
    ⌊p * (((n : ℤ) - 1 : ℤ) : ℚ)⌋ ≤ (n : ℤ) - 1 ∧
    (2 ≤ n → ⌊p * (((n : ℤ) - 1 : ℤ) : ℚ)⌋ + 1 ≤ (n : ℤ) - 1) := by
  have hT : (0 : ℚ) ≤ (((n : ℤ) - 1 : ℤ) : ℚ) := by
    push_cast
    have : (1 : ℚ) ≤ (n : ℚ) := by exact_mod_cast hn
    linarith
  have hnn : 0 ≤ ⌊p * (((n : ℤ) - 1 : ℤ) : ℚ)⌋ :=
    Int.floor_nonneg.mpr (mul_nonneg h0.le hT)
  have hlt : p * (((n : ℤ) - 1 : ℤ) : ℚ) ≤ (((n : ℤ) - 1 : ℤ) : ℚ) := by
    nlinarith
  have hle : ⌊p * (((n : ℤ) - 1 : ℤ) : ℚ)⌋ ≤ (n : ℤ) - 1 := by
    have := Int.floor_le_floor hlt
    simpa using this
  refine ⟨hnn, hle, ?_⟩
  intro h2
  have hTpos : (0 : ℚ) < (((n : ℤ) - 1 : ℤ) : ℚ) := by
    push_cast
    have : (2 : ℚ) ≤ (n : ℚ) := by exact_mod_cast h2
    linarith
  have hstrict : p * (((n : ℤ) - 1 : ℤ) : ℚ) < (((n : ℤ) - 1 : ℤ) : ℚ) := by
    nlinarith
  have := Int.floor_lt.mpr hstrict
  omega

/-- An in-bounds JS index access yields a value. -/
theorem jsIndex_some (route : List Point) (i : ℤ) (h0 : 0 ≤ i)
    (hlt : i < (route.length : ℤ)) : ∃ a, jsIndex route i = some a := by
  have hnat : i.toNat < route.length := by omega
  refine ⟨route.get ⟨i.toNat, hnat⟩, ?_⟩
  simp [jsIndex, h0, List.getElem?_eq_getElem hnat]

/-- On a nonempty route, `interpolateRoute` performs no out-of-bounds access. -/
theorem interpolateRoute_isSome (route : List Point) (p : ℚ)
    (hn : 1 ≤ route.length) : (interpolateRoute route p).isSome = true := by
  unfold interpolateRoute
  split_ifs with hp0 hp1
  · obtain ⟨a, ha⟩ := jsIndex_some route 0 (le_refl 0) (by exact_mod_cast hn)
    simp [ha]
  · obtain ⟨a, ha⟩ := jsIndex_some route ((route.length : ℤ) - 1) (by omega)
      (by omega)
    simp [ha]
  · obtain ⟨hnn, hle, -⟩ := segment_idx_bounds hn (not_le.mp hp0) (not_le.mp hp1)
    obtain ⟨a, ha⟩ :=
      jsIndex_some route ⌊p * (((route.length : ℤ) - 1 : ℤ) : ℚ)⌋ hnn (by omega)
    obtain ⟨b, hb⟩ := jsIndex_some route
      (min (⌊p * (((route.length : ℤ) - 1 : ℤ) : ℚ)⌋ + 1) ((route.length : ℤ) - 1))
      (by omega) (by omega)
    simp only [ha, hb]
    simp

/-- A single-point route interpolates to its point for every progress value. -/
theorem interpolateRoute_single (a : Point) (p : ℚ) :
    interpolateRoute [a] p = some a := by
  unfold interpolateRoute
  split_ifs with hp0 hp1
  · simp [jsIndex]
  · simp [jsIndex]
  · simp [jsIndex]

/-- At progress 1, `interpolateRoute` returns the route's last point. -/
theorem interpolateRoute_last (route : List Point) (hn : 1 ≤ route.length) :
    interpolateRoute route 1 = route.getLast? := by
  unfold interpolateRoute
  rw [if_neg (by norm_num), if_pos (le_refl 1)]
  have h0 : (0 : ℤ) ≤ (route.length : ℤ) - 1 := by omega
  have hnat : ((route.length : ℤ) - 1).toNat = route.length - 1 := by omega
  rw [List.getLast?_eq_getElem?]
  simp [jsIndex, h0, hnat]

/-- On a nonempty route, `interpolatePosition` performs no out-of-bounds
access. -/
theorem interpolatePosition_isSome (route : List Point) (p : ℚ)
    (hn : 1 ≤ route.length) : (interpolatePosition route p).isSome = true := by
  unfold interpolatePosition
  rw [if_neg (by omega)]
  split_ifs with hp0 hp1
  · obtain ⟨a, ha⟩ := jsIndex_some route 0 (le_refl 0) (by exact_mod_cast hn)
    simp [ha]
  · obtain ⟨a, ha⟩ := jsIndex_some route ((route.length : ℤ) - 1) (by omega)
      (by omega)
    simp [ha]
  · obtain ⟨hnn, hle, -⟩ := segment_idx_bounds hn (not_le.mp hp0) (not_le.mp hp1)
    obtain ⟨a, ha⟩ :=
      jsIndex_some route ⌊p * (((route.length : ℤ) - 1 : ℤ) : ℚ)⌋ hnn (by omega)
    obtain ⟨b, hb⟩ := jsIndex_some route
      (min (⌊p * (((route.length : ℤ) - 1 : ℤ) : ℚ)⌋ + 1) ((route.length : ℤ) - 1))
      (by omega) (by omega)
    simp only [ha, hb]
    simp

/-- A single-point route yields its point from `interpolatePosition` for every
progress value (the curvature vanishes because the within-segment fraction is
zero there). -/
theorem interpolatePosition_single (a : Point) (p : ℚ) :
    interpolatePosition [a] p = some ((a.latitude : ℝ), (a.longitude : ℝ)) := by
  unfold interpolatePosition
  rw [if_neg (by norm_num)]
  split_ifs with hp0 hp1
  · simp [jsIndex]
  · simp [jsIndex]
  · simp [jsIndex]

/-- At progress 1, `interpolatePosition` returns the route's last point. -/
theorem interpolatePosition_last (route : List Point) (hn : 1 ≤ route.length) :
    interpolatePosition route 1 =
      route.getLast?.map (fun a => ((a.latitude : ℝ), (a.longitude : ℝ))) := by
  unfold interpolatePosition
  rw [if_neg (by omega), if_neg (by norm_num), if_pos (le_refl 1)]
  have h0 : (0 : ℤ) ≤ (route.length : ℤ) - 1 := by omega
  have hnat : ((route.length : ℤ) - 1).toNat = route.length - 1 := by omega
  rw [List.getLast?_eq_getElem?]
  simp [jsIndex, h0, hnat]

/-- The spec-side interpolator also maps a single-point route to its point. -/
theorem positionAtSpec_single (a : Point) (p : ℚ) : positionAtSpec [a] p = some a := by
  unfold positionAtSpec
  split_ifs <;> simp_all

/-- In the strict interior of the progress range, the code interpolator and
the spec-side interpolator agree on routes with at least two points. -/
theorem interpolateRoute_middle_eq (route : List Point) (p : ℚ)
    (h2 : 2 ≤ route.length) (hp0 : 0 < p) (hp1 : p < 1) :
    interpolateRoute route p = positionAtSpec route p := by
  obtain ⟨hnn, hle, hplus⟩ :=
    segment_idx_bounds (n := route.length) (by omega) hp0 hp1
  have hplus' := hplus h2
  set S := ⌊p * (((route.length : ℤ) - 1 : ℤ) : ℚ)⌋ with hS
  have hminS : min (S + 1) ((route.length : ℤ) - 1) = S + 1 := min_eq_left hplus'
  have hSnat : S.toNat < route.length := by omega
  have hS1nat : (S + 1).toNat < route.length := by omega
  have hpos1 : (0 : ℤ) ≤ S + 1 := by omega
  have e1 : jsIndex route S = some route[S.toNat] := by
    simp [jsIndex, hnn, List.getElem?_eq_getElem hSnat]
  have e2 : jsIndex route (S + 1) = some route[(S + 1).toNat] := by
    simp [jsIndex, hpos1, List.getElem?_eq_getElem hS1nat]
  have hcast : ((route.length - 1 : ℕ) : ℚ) = (((route.length : ℤ) - 1 : ℤ) : ℚ) := by
    have : 1 ≤ route.length := by omega
    push_cast [Nat.cast_sub this]
    ring
  have hk : ⌊p * ((route.length - 1 : ℕ) : ℚ)⌋ = S := by rw [hcast]
  have hk1 : S.toNat + 1 = (S + 1).toNat := by omega
  have hSQ : ((S.toNat : ℕ) : ℚ) = (S : ℚ) := by exact_mod_cast Int.toNat_of_nonneg hnn
  simp only [interpolateRoute, positionAtSpec]
  rw [if_neg (not_le.mpr hp0), if_neg (not_le.mpr hp1), if_neg (not_le.mpr hp0),
      if_neg (not_le.mpr hp1), if_neg (by omega : ¬ route.length = 1)]
  rw [hminS, e1, e2, hk, hk1]
  rw [List.getElem?_eq_getElem hSnat, List.getElem?_eq_getElem hS1nat]
  rw [hcast, hSQ]

/-- The MapScreen interpolator coincides with the spec-side interpolator on
every input. -/
theorem interpolateRoute_refines (route : List Point) (p : ℚ) :
    interpolateRoute route p = positionAtSpec route p := by
  by_cases hp0 : p ≤ 0
  · unfold interpolateRoute positionAtSpec
    rw [if_pos hp0, if_pos hp0]
    simp [jsIndex]
  · by_cases hp1 : 1 ≤ p
    · unfold interpolateRoute positionAtSpec
      rw [if_neg hp0, if_neg hp0, if_pos hp1, if_pos hp1]
      rcases Nat.eq_zero_or_pos route.length with h | h
      · rw [List.length_eq_zero.mp h]
        simp [jsIndex]
      · have h0 : (0 : ℤ) ≤ (route.length : ℤ) - 1 := by omega
        have hnat : ((route.length : ℤ) - 1).toNat = route.length - 1 := by omega
        simp [jsIndex, h0, hnat]
    · rcases route with _ | ⟨a, rest⟩
      · unfold interpolateRoute positionAtSpec
        rw [if_neg hp0, if_neg hp0, if_neg hp1, if_neg hp1]
        simp [jsIndex]
      · rcases rest with _ | ⟨b, rest'⟩
        · rw [interpolateRoute_single, positionAtSpec_single]
        · exact interpolateRoute_middle_eq _ p (by simp) (not_le.mp hp0)
            (not_le.mp hp1)

/-- A two-point route interpolates to the exact midpoint at progress one half. -/
theorem interpolateRoute_two_point_midpoint (a b : Point) :
    interpolateRoute [a, b] (1 / 2) =
      some ⟨(a.latitude + b.latitude) / 2, (a.longitude + b.longitude) / 2⟩ := by
  unfold interpolateRoute
  rw [if_neg (by norm_num), if_neg (by norm_num)]
  norm_num [jsIndex]
  constructor <;> ring

/-! ### Helper lemmas about the merge loop -/

/-- Pointwise invariant of the merge loop at position `i` of the local prefix:
the id is the local id, and the entry is either the unchanged local letter or
a remote letter of strictly larger status priority. -/
def MergeAt (L Rall merged : List Letter) (i : ℕ) : Prop :=
  (merged.getD i default).id = (L.getD i default).id ∧
  (merged.getD i default = L.getD i default ∨
    (merged.getD i default ∈ Rall ∧
     statusPriority (L.getD i default).status <
       statusPriority (merged.getD i default).status))

/-- One merge step preserves the pointwise invariant, appends the remote
letter exactly when its id is absent locally, and never shortens the list. -/
theorem mergeStep_inv (L Rall merged : List Letter) (r : Letter)
    (hr : r ∈ Rall) (hlen : L.length ≤ merged.length)
    (hpt : ∀ i, i < L.length → MergeAt L Rall merged i) :
    L.length ≤ (mergeStep (L.map (·.id)) merged r).length ∧
    (∀ i, i < L.length → MergeAt L Rall (mergeStep (L.map (·.id)) merged r) i) ∧
    (mergeStep (L.map (·.id)) merged r).drop L.length =
      merged.drop L.length ++
        (if (L.map (·.id)).contains r.id then [] else [r]) := by
  by_cases hc : (L.map (·.id)).contains r.id
  · have hmem : r.id ∈ L.map (·.id) := by
      simpa [List.elem_iff] using hc
    obtain ⟨l0, hl0mem, hl0id⟩ := List.mem_map.mp hmem
    obtain ⟨j, hj, hgetj⟩ := List.mem_iff_getElem.mp hl0mem
    have hjm : j < merged.length := lt_of_lt_of_le hj hlen
    have hq : (fun l => l.id == r.id) merged[j] = true := by
      have h1 : (merged.getD j default).id = (L.getD j default).id := (hpt j hj).1
      rw [List.getD_eq_getElem?_getD, List.getD_eq_getElem?_getD,
          List.getElem?_eq_getElem hjm, List.getElem?_eq_getElem hj] at h1
      simp only [Option.getD_some] at h1
      simp [h1, hgetj, hl0id]
    have hfind : merged.findIdx? (fun l => l.id == r.id) =
        some (merged.findIdx (fun l => l.id == r.id)) :=
      List.findIdx?_eq_some_of_exists ⟨merged[j], List.getElem_mem hjm, hq⟩
    set k := merged.findIdx (fun l => l.id == r.id) with hk
    have hkj : k ≤ j := by
      by_contra hlt
      exact absurd hq (by simpa using List.not_of_lt_findIdx (not_le.mp hlt))
    have hkL : k < L.length := lt_of_le_of_lt hkj hj
    have hkm : k < merged.length := lt_of_lt_of_le hkL hlen
    have hqk : merged[k].id == r.id := List.findIdx_getElem (w := hkm)
    have hqk' : merged[k].id = r.id := by simpa using hqk
    unfold mergeStep
    rw [if_pos hc, hfind]
    dsimp only
    rw [List.getElem?_eq_getElem hkm]
    dsimp only
    by_cases hpr : statusPriority merged[k].status < statusPriority r.status
    · rw [if_pos hpr]
      refine ⟨by simpa using hlen, ?_, ?_⟩
      · intro i hi
        by_cases hik : i = k
        · subst hik
          have hset : (merged.set k r).getD k default = r := by
            rw [List.getD_eq_getElem?_getD, List.getElem?_set_self hkm]
            simp
          have h1 := (hpt k hkL).1
          have hLi : (merged.getD k default) = merged.get ⟨k, hkm⟩ := by
            rw [List.getD_eq_getElem?_getD, List.getElem?_eq_getElem hkm]
            simp
          have hqi : (merged.get ⟨k, hkm⟩).id = r.id := hqk'
          have hpri : statusPriority (merged.get ⟨k, hkm⟩).status <
              statusPriority r.status := hpr
          constructor
          · rw [hset, ← h1, hLi, hqi]
          · right
            refine ⟨by rw [hset]; exact hr, ?_⟩
            rw [hset]
            rcases (hpt k hkL).2 with h | ⟨-, h⟩
            · rw [← h, hLi]; exact hpri
            · exact lt_trans h (by rw [hLi]; exact hpri)
        · have hne : (merged.set k r).getD i default = merged.getD i default := by
            rw [List.getD_eq_getElem?_getD, List.getD_eq_getElem?_getD,
                List.getElem?_set_ne (by omega)]
          exact ⟨by rw [hne]; exact (hpt i hi).1, by rw [hne]; exact (hpt i hi).2⟩
      · rw [if_pos hc, List.append_nil, List.drop_set]
        rw [if_pos hkL]
    · rw [if_neg hpr]
      exact ⟨hlen, hpt, by rw [if_pos hc, List.append_nil]⟩
  · unfold mergeStep
    rw [if_neg hc]
    refine ⟨?_, ?_, ?_⟩
    · simp; omega
    · intro i hi
      have hne : (merged ++ [r]).getD i default = merged.getD i default := by
        rw [List.getD_eq_getElem?_getD, List.getD_eq_getElem?_getD,
            List.getElem?_append_left (lt_of_lt_of_le hi hlen)]
      exact ⟨by rw [hne]; exact (hpt i hi).1, by rw [hne]; exact (hpt i hi).2⟩
    · rw [if_neg hc, List.drop_append_of_le_length hlen]

/-- Folding the merge step over the remote letters preserves the pointwise
invariant and appends exactly the remote letters whose ids are absent
locally, in order. -/
theorem merge_foldl_inv (L Rall : List Letter) (R : List Letter) :
    ∀ merged : List Letter, (∀ r ∈ R, r ∈ Rall) →
      L.length ≤ merged.length →
      (∀ i, i < L.length → MergeAt L Rall merged i) →
      L.length ≤ (R.foldl (mergeStep (L.map (·.id))) merged).length ∧
      (∀ i, i < L.length →
        MergeAt L Rall (R.foldl (mergeStep (L.map (·.id))) merged) i) ∧
      (R.foldl (mergeStep (L.map (·.id))) merged).drop L.length =
        merged.drop L.length ++
          R.filter (fun r => !((L.map (·.id)).contains r.id)) := by
  induction R with
  | nil =>
    intro merged _ hlen hpt
    exact ⟨hlen, hpt, by simp⟩
  | cons r R ih =>
    intro merged hsub hlen hpt
    obtain ⟨hl, hm, hd⟩ :=
      mergeStep_inv L Rall merged r (hsub r (by simp)) hlen hpt
    obtain ⟨ih1, ih2, ih3⟩ := ih (mergeStep (L.map (·.id)) merged r)
      (fun x hx => hsub x (by simp [hx])) hl hm
    refine ⟨ih1, ih2, ?_⟩
    rw [List.foldl_cons] at *
    rw [ih3, hd, List.filter_cons]
    by_cases hc : (L.map (·.id)).contains r.id
    · rw [if_pos hc, if_neg (by simpa using hc), List.append_nil]
    · rw [if_neg hc, if_pos (by simpa using hc), List.append_assoc,
          List.singleton_append]

/-! ### Claim theorems -/

/-- C1 (counterexample): the claim fails for `estimateLetterProgress`, which
recomputes the status from the clock alone: on a letter whose status is read
and whose transit window has elapsed, it returns a letter whose status is
delivered, strictly earlier than read in the order
scheduled < in_transit < delivered < read. -/
theorem estimateLetterProgress_read_regression :
    (estimateLetterProgress sampleReadLetter 600000).map (·.status) =
      some .delivered ∧
    sampleReadLetter.status = .read ∧
    statusPriority .delivered < statusPriority .read := by
  refine ⟨?_, rfl, by decide⟩
  rfl

/-- C1 (amended): the recompute pass `processLetterStatuses` leaves every
letter's status at the same point or later in the order
scheduled < in_transit < delivered < read; in particular a letter whose
status is read is returned unchanged.  (`estimateLetterProgress` does not
satisfy this: it recomputes the status purely from the current time and can
move a read letter back to delivered.) -/
theorem processLetterStatuses_status_monotone (transitDuration now : ℤ)
    (l : Letter) :
    statusPriority l.status ≤
      statusPriority (processLetter transitDuration now l).status ∧
    (l.status = .read → processLetter transitDuration now l = l) ∧
    (∀ letters : List Letter, processLetterStatuses transitDuration now letters =
      letters.map (processLetter transitDuration now)) :=
  ⟨processLetter_monotone transitDuration now l,
   fun h => processLetter_read_fixed transitDuration now l h,
   fun _ => rfl⟩

/-- C1 (witness): the amended statement at the storage.js transit constant on
a concrete read letter. -/
theorem processLetterStatuses_status_monotone_witness :
    statusPriority sampleReadLetter.status ≤
      statusPriority (processLetter 30000 600000 sampleReadLetter).status ∧
    processLetter 30000 600000 sampleReadLetter = sampleReadLetter :=
  ⟨(processLetterStatuses_status_monotone 30000 600000 sampleReadLetter).1,
   (processLetterStatuses_status_monotone 30000 600000 sampleReadLetter).2.1 rfl⟩

/-- C2: for endTime after startTime the progress calculator returns the
clamp of `(now - startTime) / (endTime - startTime)` to `[0, 1]`, and for a
zero or negative duration it returns 0; the division is guarded by the
duration test, so no division by zero is ever performed. -/
theorem flightProgressPercent_clamp (dep arr now : ℤ) :
    (dep < arr → flightProgressPercent dep arr now
        = max 0 (min (((now - dep : ℤ) : ℚ) / ((arr - dep : ℤ) : ℚ)) 1)) ∧
    (arr - dep ≤ 0 → flightProgressPercent dep arr now = 0) := by
  constructor
  · intro h
    have hdur : (0 : ℤ) < arr - dep := by omega
    have hdurQ : (0 : ℚ) < ((arr - dep : ℤ) : ℚ) := by exact_mod_cast hdur
    have hne : ((arr - dep : ℤ) : ℚ) ≠ 0 := ne_of_gt hdurQ
    unfold flightProgressPercent
    simp only [not_le.mpr hdur, if_false]
    rw [show ((max 0 (min (now - dep) (arr - dep)) : ℤ) : ℚ)
          = max 0 (min ((now - dep : ℤ) : ℚ) ((arr - dep : ℤ) : ℚ)) by
        push_cast; ring_nf]
    rw [← max_div_div_right hdurQ.le, ← min_div_div_right hdurQ.le,
        zero_div, div_self hne]
  · intro h
    unfold flightProgressPercent
    simp [h]

/-- C2 (witness): the clamp form at a concrete interior time, and the
degenerate zero-duration result. -/
theorem flightProgressPercent_clamp_witness :
    flightProgressPercent 0 10 3
        = max 0 (min (((3 - 0 : ℤ) : ℚ) / ((10 - 0 : ℤ) : ℚ)) 1) ∧
    flightProgressPercent 10 10 99 = 0 :=
  ⟨(flightProgressPercent_clamp 0 10 3).1 (by decide),
   (flightProgressPercent_clamp 10 10 99).2 (by decide)⟩

/-- C3: the recompute step leaves a scheduled letter scheduled exactly while
the current time is before the scheduled-send time, moves it to in_transit
when the send time has arrived but the transit window has not elapsed, and
moves an in_transit letter to delivered exactly when the elapsed time reaches
the transit-duration constant, setting progress 1 and deliveredAt to the
current time (a scheduled letter whose window has already fully elapsed moves
through in_transit to delivered within the same pass). -/
theorem processLetter_transitions (d now s : ℤ) (hd : 0 < d) (l : Letter)
    (hs : l.scheduledSendUTC = some s) :
    (l.status = .scheduled → now < s → processLetter d now l = l) ∧
    (l.status = .scheduled → s ≤ now → now - s < d →
      (processLetter d now l).status = .in_transit) ∧
    (l.status = .in_transit →
      ((processLetter d now l).status = .delivered ↔ d ≤ now - s)) ∧
    (l.status = .in_transit → d ≤ now - s →
      (processLetter d now l).deliveredAt = some now ∧
      (processLetter d now l).animationProgress = some 1) ∧
    (l.status = .scheduled → d ≤ now - s →
      (processLetter d now l).status = .delivered ∧
      (processLetter d now l).deliveredAt = some now ∧
      (processLetter d now l).animationProgress = some 1) := by
  have hdQ : (0 : ℚ) < (d : ℚ) := by exact_mod_cast hd
  have key : (1 ≤ ((now : ℚ) - (s : ℚ)) / (d : ℚ)) ↔ d ≤ now - s := by
    rw [one_le_div hdQ]
    constructor
    · intro h
      have : (d : ℚ) ≤ ((now - s : ℤ) : ℚ) := by push_cast; linarith
      exact_mod_cast this
    · intro h
      have : ((d : ℤ) : ℚ) ≤ ((now - s : ℤ) : ℚ) := by exact_mod_cast h
      push_cast at this
      linarith
  refine ⟨?_, ?_, ?_, ?_, ?_⟩
  · intro hstat hlt
    unfold processLetter
    simp [hstat, hs, dateLe, not_le.mpr hlt]
  · intro hstat hle hlt
    unfold processLetter
    simp [hstat, hs, dateLe, hle]
    rw [if_neg (by rw [key]; omega)]
  · intro hstat
    unfold processLetter
    simp [hstat, hs, dateLe]
    rcases le_or_lt d (now - s) with h | h
    · rw [if_pos (key.mpr h)]
      simpa using h
    · rw [if_neg (by rw [key]; omega)]
      simp
      omega
  · intro hstat hle
    unfold processLetter
    simp [hstat, hs, dateLe]
    rw [if_pos (key.mpr hle)]
    simp
  · intro hstat hle
    unfold processLetter
    have hle' : s ≤ now := by omega
    simp [hstat, hs, dateLe, hle']
    rw [if_pos (key.mpr hle)]
    simp

/-- C3 (witness): delivery characterization at the storage.js constant on a
concrete in_transit letter 50 seconds after its send time. -/
theorem processLetter_transitions_witness :
    (processLetter 30000 50000 sampleTransitLetter).status = .delivered ↔
      (30000 : ℤ) ≤ 50000 - 0 :=
  (processLetter_transitions 30000 50000 0 (by decide) sampleTransitLetter
    rfl).2.2.1 rfl

/-- C4: the recompute pass is idempotent at a fixed current time, and a
letter whose status is already delivered or read is returned unchanged, so
none of its fields (status, deliveredAt, readAt) are touched. -/
theorem processLetterStatuses_idempotent (transitDuration now : ℤ)
    (letters : List Letter) :
    processLetterStatuses transitDuration now
        (processLetterStatuses transitDuration now letters) =
      processLetterStatuses transitDuration now letters ∧
    ∀ l ∈ letters, (l.status = .delivered ∨ l.status = .read) →
      processLetter transitDuration now l = l := by
  constructor
  · unfold processLetterStatuses
    rw [List.map_map]
    have hcomp : processLetter transitDuration now ∘
        processLetter transitDuration now = processLetter transitDuration now :=
      funext (processLetter_idem transitDuration now)
    rw [hcomp]
  · rintro l - (h | h)
    · exact processLetter_delivered_fixed transitDuration now l h
    · exact processLetter_read_fixed transitDuration now l h

/-- C4 (witness): idempotence on a concrete one-letter list whose letter is
delivered, and invariance of that delivered letter. -/
theorem processLetterStatuses_idempotent_witness :
    processLetterStatuses 30000 600000
        (processLetterStatuses 30000 600000 [sampleDeliveredLetter]) =
      processLetterStatuses 30000 600000 [sampleDeliveredLetter] ∧
    processLetter 30000 600000 sampleDeliveredLetter = sampleDeliveredLetter :=
  ⟨(processLetterStatuses_idempotent 30000 600000 [sampleDeliveredLetter]).1,
   (processLetterStatuses_idempotent 30000 600000 [sampleDeliveredLetter]).2
     sampleDeliveredLetter (by simp) (Or.inl rfl)⟩

/-- C5 (counterexample): the claim fails for `interpolatePosition` of
`flightSimulation.js`: on the route [(0,0), (10,10)] at progress one half it
adds the curvature term `sin(0.5 * pi) * 0.01` to the latitude and returns
(5.01, 5), not the exact midpoint (5, 5). -/
theorem interpolatePosition_not_exact_midpoint :
    interpolatePosition [⟨0, 0⟩, ⟨10, 10⟩] (1 / 2) =
      some ((5 + 1 / 100 : ℝ), (5 : ℝ)) ∧
    interpolatePosition [⟨0, 0⟩, ⟨10, 10⟩] (1 / 2) ≠ some ((5 : ℝ), (5 : ℝ)) := by
  have hval : interpolatePosition [⟨0, 0⟩, ⟨10, 10⟩] (1 / 2) =
      some ((5 + 1 / 100 : ℝ), (5 : ℝ)) := by
    unfold interpolatePosition
    rw [if_neg (by norm_num), if_neg (by norm_num), if_neg (by norm_num)]
    norm_num [jsIndex]
    rw [show ((1 : ℝ) / 2) * Real.pi = Real.pi / 2 by ring, Real.sin_pi_div_two]
    norm_num
  refine ⟨hval, ?_⟩
  rw [hval]
  intro h
  have := Option.some.inj h
  have h5 : (5 + 1 / 100 : ℝ) = 5 := congrArg Prod.fst this
  norm_num at h5

/-- C5 (amended): the MapScreen interpolator `interpolateRoute` returns the
exact piecewise-linear interpolation of latitude and longitude over the
route's equal-length segments for every route and progress value (stated as
agreement with the interpolator written from the spec's words): for any
2-point route the value at progress one half is the exact midpoint, and on
[(0,0), (10,10)] at progress one quarter it is exactly (2.5, 2.5).
`interpolatePosition` of `flightSimulation.js` instead adds the curvature
term `sin(segmentFraction * pi) * 0.01` to the latitude, so its interior
values deviate from the exact interpolation. -/
theorem interpolateRoute_piecewise_exact :
    (∀ (route : List Point) (p : ℚ),
      interpolateRoute route p = positionAtSpec route p) ∧
    (∀ a b : Point, interpolateRoute [a, b] (1 / 2) =
      some ⟨(a.latitude + b.latitude) / 2, (a.longitude + b.longitude) / 2⟩) ∧
    interpolateRoute [⟨0, 0⟩, ⟨10, 10⟩] (1 / 4) = some ⟨5 / 2, 5 / 2⟩ :=
  ⟨interpolateRoute_refines, interpolateRoute_two_point_midpoint,
   by norm_num [interpolateRoute, jsIndex]⟩

/-- C6: on a route of length at least 1, neither interpolator ever indexes
outside the route array (their result is always a value, never the
out-of-bounds `undefined`): a route of length 1 yields its single point for
any progress, and at progress 1 the last point is returned. -/
theorem interpolate_no_out_of_bounds (route : List Point) (p : ℚ)
    (hn : 1 ≤ route.length) :
    (interpolateRoute route p).isSome = true ∧
    (interpolatePosition route p).isSome = true ∧
    interpolateRoute route 1 = route.getLast? ∧
    interpolatePosition route 1 =
      route.getLast?.map (fun a => ((a.latitude : ℝ), (a.longitude : ℝ))) ∧
    (∀ a, route = [a] → interpolateRoute route p = some a ∧
      interpolatePosition route p = some ((a.latitude : ℝ), (a.longitude : ℝ))) := by
  refine ⟨interpolateRoute_isSome route p hn, interpolatePosition_isSome route p hn,
    interpolateRoute_last route hn, interpolatePosition_last route hn, ?_⟩
  intro a h
  subst h
  exact ⟨interpolateRoute_single a p, interpolatePosition_single a p⟩

/-- C6 (witness): a concrete single-point route at an out-of-range progress
value. -/
theorem interpolate_no_out_of_bounds_witness :
    (interpolateRoute [⟨3, 4⟩] (7 / 2)).isSome = true ∧
    interpolateRoute [⟨3, 4⟩] (7 / 2) = some ⟨3, 4⟩ :=
  ⟨(interpolate_no_out_of_bounds [⟨3, 4⟩] (7 / 2) (by decide)).1,
   ((interpolate_no_out_of_bounds [⟨3, 4⟩] (7 / 2) (by decide)).2.2.2.2
     ⟨3, 4⟩ rfl).1⟩

/-- C7 (counterexample): the claim fails when endTime is not after startTime:
with startTime = endTime = 0 and now = 5 the current time is strictly after
endTime, yet the duration guard returns 0, not 1. -/
theorem flightProgressPercent_degenerate :
    flightProgressPercent 0 0 5 = 0 ∧ (0 : ℤ) < 5 ∧ (0 : ℚ) ≠ 1 := by
  refine ⟨rfl, by decide, by norm_num⟩

/-- C7 (amended): whenever endTime is strictly after startTime, the progress
calculator returns exactly 1 for every now strictly after endTime. -/
theorem flightProgressPercent_after_end (dep arr now : ℤ)
    (h1 : dep < arr) (h2 : arr < now) : flightProgressPercent dep arr now = 1 := by
  have hdur : (0 : ℤ) < arr - dep := by omega
  have hmin : min (now - dep) (arr - dep) = arr - dep := by omega
  unfold flightProgressPercent
  simp only [not_le.mpr hdur, if_false, hmin, max_eq_right hdur.le]
  rw [div_self]
  exact_mod_cast hdur.ne'

/-- C7 (witness): the amended statement at concrete times 0 < 10 < 20. -/
theorem flightProgressPercent_after_end_witness :
    flightProgressPercent 0 10 20 = 1 :=
  flightProgressPercent_after_end 0 10 20 (by decide) (by decide)

/-- C8: a scheduled letter whose scheduled-send timestamp is malformed or
missing is treated as not yet due: every comparison against the invalid date
is false, so the letter is returned completely unchanged and in particular
keeps status scheduled; the pass is a total function, so it completes without
throwing. -/
theorem processLetter_malformed_timestamp (transitDuration now : ℤ) (l : Letter)
    (h1 : l.scheduledSendUTC = none) (h2 : l.status = .scheduled) :
    processLetter transitDuration now l = l ∧
    (processLetter transitDuration now l).status = .scheduled := by
  have h : processLetter transitDuration now l = l := by
    unfold processLetter
    simp [h1, h2, dateLe]
  exact ⟨h, by rw [h]; exact h2⟩

/-- C8 (witness): a concrete scheduled letter with a malformed timestamp is
unchanged at any current time. -/
theorem processLetter_malformed_timestamp_witness :
    processLetter 30000 123456 sampleMalformedLetter = sampleMalformedLetter ∧
    (processLetter 30000 123456 sampleMalformedLetter).status = .scheduled :=
  processLetter_malformed_timestamp 30000 123456 sampleMalformedLetter rfl rfl

/-- C9: saveLetter resets the stored list to exactly two fresh letters — the
user's letter (its return value) and a mirrored counterpart with
fromFlight/toFlight swapped — both with status in_transit, progress 0 and the
same scheduledSendUTC; the result does not depend on the previously stored
letters, which are therefore all discarded. -/
theorem saveLetter_resets_store (text : String) (sendDelayMinutes : ℤ)
    (currentUser : String) (now : ℤ) (id1 id2 : String)
    (existing : List Letter) :
    ∃ u o,
      (saveLetter text sendDelayMinutes currentUser now id1 id2 existing).1 =
        [u, o] ∧
      u = (saveLetter text sendDelayMinutes currentUser now id1 id2 existing).2 ∧
      u.status = .in_transit ∧ o.status = .in_transit ∧
      u.animationProgress = some 0 ∧ o.animationProgress = some 0 ∧
      u.scheduledSendUTC = some (now + sendDelayMinutes * 60000) ∧
      o.scheduledSendUTC = u.scheduledSendUTC ∧
      o.fromFlight = u.toFlight ∧ o.toFlight = u.fromFlight ∧
      saveLetter text sendDelayMinutes currentUser now id1 id2 existing =
        saveLetter text sendDelayMinutes currentUser now id1 id2 [] :=
  ⟨_, _, rfl, rfl, rfl, rfl, rfl, rfl, rfl, rfl, rfl, rfl, rfl⟩

/-- C10: the merge keeps every local letter's id at its position, appends
exactly the remote letters whose ids are absent locally (in order), and at
each local position either keeps the local letter unchanged or replaces it by
a remote letter of strictly larger status priority — so merging never lowers
any letter's status. -/
theorem mergeLetterData_merge_spec (localLetters remoteLetters : List Letter) :
    mergeLetterData localLetters remoteLetters =
      (mergeLetterData localLetters remoteLetters).take localLetters.length ++
        remoteLetters.filter
          (fun r => !((localLetters.map (·.id)).contains r.id)) ∧
    ∀ i, i < localLetters.length →
      ((mergeLetterData localLetters remoteLetters).getD i default).id =
        (localLetters.getD i default).id ∧
      ((mergeLetterData localLetters remoteLetters).getD i default =
          localLetters.getD i default ∨
        ((mergeLetterData localLetters remoteLetters).getD i default ∈
            remoteLetters ∧
         statusPriority (localLetters.getD i default).status <
           statusPriority
             ((mergeLetterData localLetters remoteLetters).getD i
               default).status)) := by
  obtain ⟨h1, h2, h3⟩ := merge_foldl_inv localLetters remoteLetters remoteLetters
    localLetters (fun r h => h) (le_refl _)
    (fun i hi => ⟨rfl, Or.inl rfl⟩)
  have hdrop : (mergeLetterData localLetters remoteLetters).drop
      localLetters.length =
      remoteLetters.filter
        (fun r => !((localLetters.map (·.id)).contains r.id)) := by
    unfold mergeLetterData
    rw [h3, List.drop_length, List.nil_append]
  constructor
  · conv_lhs => rw [← List.take_append_drop localLetters.length
      (mergeLetterData localLetters remoteLetters)]
    rw [hdrop]
  · intro i hi
    exact h2 i hi

/-- C10 (witness): merging a one-letter local list with a same-id remote
letter of strictly later status. -/
theorem mergeLetterData_merge_spec_witness :
    ((mergeLetterData [sampleTransitLetter] [sampleRemoteLetter]).getD 0
        default).id =
      (([sampleTransitLetter] : List Letter).getD 0 default).id ∧
    ((mergeLetterData [sampleTransitLetter] [sampleRemoteLetter]).getD 0
          default =
        ([sampleTransitLetter] : List Letter).getD 0 default ∨
      ((mergeLetterData [sampleTransitLetter] [sampleRemoteLetter]).getD 0
          default ∈ [sampleRemoteLetter] ∧
       statusPriority
           (([sampleTransitLetter] : List Letter).getD 0 default).status <
         statusPriority
           ((mergeLetterData [sampleTransitLetter] [sampleRemoteLetter]).getD 0
             default).status)) :=
  (mergeLetterData_merge_spec [sampleTransitLetter] [sampleRemoteLetter]).2 0
    (by decide)

end AirLetters
